import Mathlib

/-
Verification of the persistence / reconciliation core of
gitlab-ci-pipelines-exporter.

Embedded source:
  * pkg/exporter/store.go — the four garbage-collection passes
    (garbageCollectProjects / Environments / Refs / Metrics) and the
    metric accessor wrappers (storeGetMetric / storeSetMetric /
    storeDelMetric).
  * pkg/store/redis_test.go — pins the behaviour of the Redis-backed
    task queue (QueueTask / UnqueueTask / keepalives); the Redis store
    implementation itself is not among the sources, so it is modelled
    from the design document, with the tests as the authority where the
    two disagree.

Modelling conventions:
  * Go maps are modelled as association lists (`List (κ × ν)`) with
    first-match lookup; store mutation is explicit state passing on
    `StoreState`.
  * `regexp.MustCompile` + `MatchString` are modelled by an abstract
    engine `compile : String → Option (String → Bool)`; `none` models a
    pattern on which MustCompile panics, and a pass that reaches such a
    pattern produces the `GCResult.panicked` outcome.
  * Go float64 metric values are modelled as `Rat`; the only operation
    the embedded code performs on them is comparison with 1.
  * Store transport errors cannot occur against the pure in-memory
    state, so the store CRUD operations are infallible here; the one
    external fallible call (gitlabClient.ListProjects) and the
    wrapper-level transport failures are modelled explicitly.
  * Each pass additionally returns the list of write operations it
    performed against the store (`StoreOp`), so that statements about
    *how often* and *with which reason* an entity was deleted are
    expressible, mirroring the log lines emitted by the Go code.
-/

set_option autoImplicit false

namespace Gcpe

/-! ### Association-list primitives (the model of Go maps) -/

/-- First-match lookup in an association list, the model of `m[k]`. -/
def lookupKey {κ ν : Type} [DecidableEq κ] : List (κ × ν) → κ → Option ν
  | [], _ => none
  | kv :: rest, k => if kv.1 = k then some kv.2 else lookupKey rest k

/-- Remove every binding of key `k`, the model of `delete(m, k)`. -/
def eraseKey {κ ν : Type} [DecidableEq κ] (m : List (κ × ν)) (k : κ) : List (κ × ν) :=
  m.filter (fun kv => kv.1 ≠ k)

/-- Upsert, the model of `m[k] = v`. -/
def insertKey {κ ν : Type} [DecidableEq κ] (m : List (κ × ν)) (k : κ) (v : ν) : List (κ × ν) :=
  (k, v) :: eraseKey m k

/-! ### The entity model (pkg/schemas, modelled from the spec)

The schemas package is not among the sources; per the design document
(§3) every entity has a pure, collision-free `Key()` over its
identifying fields, and Environments/Refs carry cached copies of the
owning Project's derived configuration.  Go accessor chains such as
`p.Pull.Environments.NameRegexp()` are "pure derivations from the
Project's configuration" (spec §6), modelled as flat fields holding the
derived value. -/

/-- Modelled from the spec: `schemas.Project` — identified by its full
path; carries the derived pull-behaviour configuration values. -/
structure Project where
  Name : String
  PullEnvironmentsNameRegexp : String
  PullEnvironmentsTagsRegexp : String
  PullRefsRegexp : String
  OutputSparseStatusMetrics : Bool
  PullPipelineJobsEnabled : Bool
  PullPipelineVariablesEnabled : Bool
  PullPipelineVariablesRegexp : String
deriving DecidableEq, Repr

/-- Modelled from the spec: `Project.Key()` is a pure collision-free
function of the identifying field, the full path. -/
def Project.Key (p : Project) : String := p.Name

/-- The Go composite literal `schemas.Project{Name: n}`: every other
field takes its zero value. -/
def projectStub (Name : String) : Project :=
  { Name := Name
    PullEnvironmentsNameRegexp := ""
    PullEnvironmentsTagsRegexp := ""
    PullRefsRegexp := ""
    OutputSparseStatusMetrics := false
    PullPipelineJobsEnabled := false
    PullPipelineVariablesEnabled := false
    PullPipelineVariablesRegexp := "" }

/-- Modelled from the spec: `schemas.Environment` — identified by
(ProjectName, Name), with cached configuration copies. -/
structure Environment where
  ProjectName : String
  Name : String
  ID : Nat
  ExternalURL : String
  OutputSparseStatusMetrics : Bool
  TagsRegexp : String
deriving DecidableEq, Repr

/-- Identifying pair of an Environment. -/
abbrev EnvironmentKey := String × String

/-- Modelled from the spec: `Environment.Key()` over (ProjectName, Name). -/
def Environment.Key (e : Environment) : EnvironmentKey := (e.ProjectName, e.Name)

/-- The Go composite literal `schemas.Environment{ProjectName: p, Name: n}`
used by garbageCollectMetrics: remaining fields are zero values. -/
def environmentStub (ProjectName Name : String) : Environment :=
  { ProjectName := ProjectName
    Name := Name
    ID := 0
    ExternalURL := ""
    OutputSparseStatusMetrics := false
    TagsRegexp := "" }

/-- `schemas.RefKind` is a string-typed alias in Go (the metric GC casts
an arbitrary `kind` label value into it). -/
abbrev RefKind := String

/-- Modelled from the spec: `schemas.Ref` — identified by
(Kind, ProjectName, Name), with four cached configuration copies. -/
structure Ref where
  Kind : RefKind
  ProjectName : String
  Name : String
  OutputSparseStatusMetrics : Bool
  PullPipelineJobsEnabled : Bool
  PullPipelineVariablesEnabled : Bool
  PullPipelineVariablesRegexp : String
deriving DecidableEq, Repr

/-- Identifying triple of a Ref. -/
abbrev RefKey := RefKind × String × String

/-- Modelled from the spec: `Ref.Key()` over (Kind, ProjectName, Name). -/
def Ref.Key (r : Ref) : RefKey := (r.Kind, r.ProjectName, r.Name)

/-- The Go composite literal
`schemas.Ref{Kind: k, ProjectName: p, Name: n}` used by
garbageCollectMetrics: cached fields are zero values. -/
def refStub (Kind ProjectName Name : String) : Ref :=
  { Kind := Kind
    ProjectName := ProjectName
    Name := Name
    OutputSparseStatusMetrics := false
    PullPipelineJobsEnabled := false
    PullPipelineVariablesEnabled := false
    PullPipelineVariablesRegexp := "" }

/-- The closed enumeration `schemas.MetricKind` (the constructors the
embedded code distinguishes, plus the generic pipeline-level kinds). -/
inductive MetricKind where
  | coverage
  | durationSeconds
  | id
  | runCount
  | status
  | timestamp
  | jobArtifactSizeBytes
  | jobDurationSeconds
  | jobID
  | jobRunCount
  | jobStatus
  | jobTimestamp
deriving DecidableEq, Repr

/-- Modelled from the spec: `schemas.Metric` — identified by
(Kind, Labels); `prometheus.Labels` is a map from label name to value.
The float64 `Value` is modelled as a rational. -/
structure Metric where
  Kind : MetricKind
  Labels : List (String × String)
  Value : Rat
deriving DecidableEq, Repr

/-- Identifying pair of a Metric. -/
abbrev MetricKey := MetricKind × List (String × String)

/-- Modelled from the spec: `Metric.Key()` over (Kind, Labels). -/
def Metric.Key (m : Metric) : MetricKey := (m.Kind, m.Labels)

/-! ### The store state and its CRUD operations (spec §4.1/§4.2) -/

/-- The persisted state visible through the Store interface: one map per
entity type. -/
structure StoreState where
  Projects : List (String × Project)
  Environments : List (EnvironmentKey × Environment)
  Refs : List (RefKey × Ref)
  Metrics : List (MetricKey × Metric)
deriving DecidableEq, Repr

def StoreState.ProjectExists (s : StoreState) (k : String) : Bool :=
  (lookupKey s.Projects k).isSome

def StoreState.GetProject (s : StoreState) (k : String) : Option Project :=
  lookupKey s.Projects k

def StoreState.DelProject (s : StoreState) (k : String) : StoreState :=
  { s with Projects := eraseKey s.Projects k }

def StoreState.DelEnvironment (s : StoreState) (k : EnvironmentKey) : StoreState :=
  { s with Environments := eraseKey s.Environments k }

def StoreState.SetEnvironment (s : StoreState) (e : Environment) : StoreState :=
  { s with Environments := insertKey s.Environments e.Key e }

def StoreState.DelRef (s : StoreState) (k : RefKey) : StoreState :=
  { s with Refs := eraseKey s.Refs k }

def StoreState.SetRef (s : StoreState) (r : Ref) : StoreState :=
  { s with Refs := insertKey s.Refs r.Key r }

def StoreState.DelMetric (s : StoreState) (k : MetricKey) : StoreState :=
  { s with Metrics := eraseKey s.Metrics k }

def StoreState.SetMetric (s : StoreState) (m : Metric) : StoreState :=
  { s with Metrics := insertKey s.Metrics m.Key m }

/-- `GetMetric` looks the metric up by its key and, on a hit, overwrites
the caller's copy; on a miss it leaves the caller's value untouched. -/
def StoreState.GetMetric (s : StoreState) (m : Metric) : Metric :=
  match lookupKey s.Metrics m.Key with
  | some stored => stored
  | none => m

/-! ### Observable store writes

Every write a GC pass performs against the store, together with the
`reason` field of the log line the Go code emits alongside it.  The
traces make statements such as "DelMetric is called twice on the same
key" expressible. -/

/-- One store write performed by a GC pass. -/
inductive StoreOp where
  | delProject (k : String)
  | delEnvironment (k : EnvironmentKey)
  | setEnvironment (e : Environment)
  | delRef (k : RefKey)
  | setRef (r : Ref)
  | delMetric (k : MetricKey) (reason : String)
deriving DecidableEq, Repr

/-- Outcome of a pass that may hit `regexp.MustCompile` on an invalid
pattern: MustCompile panics, so the pass neither returns a value nor an
error in that case. -/
inductive GCResult (α : Type) where
  | panicked
  | ok (val : α)
deriving DecidableEq, Repr

/-! ### garbageCollectProjects (pkg/exporter/store.go:10-51)

The configuration snapshot and the external resource-listing client
(spec §6) are passed in explicitly; `listProjects` models
`gitlabClient.ListProjects`, whose error aborts the pass. -/

/-- The configuration snapshot: explicitly configured projects and
wildcard discovery specs (a wildcard is opaque to this code). -/
structure Config where
  Projects : List Project
  Wildcards : List String
deriving Repr

/-- The wildcard loop of garbageCollectProjects: for each wildcard, list
the discoverable projects (propagating a listing error) and delete each
found key from the local `storedProjects` map. -/
def garbageCollectProjectsWildcards (listProjects : String → Except String (List Project)) :
    List String → List (String × Project) → Except String (List (String × Project))
  | [], storedProjects => .ok storedProjects
  | w :: ws, storedProjects =>
    match listProjects w with
    | .error e => .error e
    | .ok foundProjects =>
      garbageCollectProjectsWildcards listProjects ws
        (foundProjects.foldl (fun m p => eraseKey m p.Key) storedProjects)

/-- garbageCollectProjects: copy the stored-projects map, delete from the
copy every configured key and every wildcard-discoverable key, then
delete whatever remains ("stale") from the store. -/
def garbageCollectProjects (listProjects : String → Except String (List Project))
    (config : Config) (s : StoreState) : Except String (StoreState × List StoreOp) :=
  let storedProjects := s.Projects
  -- Loop through all configured projects
  let storedProjects := config.Projects.foldl (fun m p => eraseKey m p.Key) storedProjects
  -- Loop through what can be found from the wildcards
  match garbageCollectProjectsWildcards listProjects config.Wildcards storedProjects with
  | .error e => .error e
  | .ok stale =>
    .ok (stale.foldl
      (fun acc kp => (acc.1.DelProject kp.1, acc.2 ++ [StoreOp.delProject kp.1]))
      (s, []))

/-- A project key is still reachable from the current configuration:
it is the key of an explicitly configured project, or the key of a
project returned by a successful wildcard discovery listing. -/
def KeptProjectKey (listProjects : String → Except String (List Project))
    (config : Config) (k : String) : Prop :=
  (∃ q ∈ config.Projects, q.Key = k) ∨
  (∃ w ∈ config.Wildcards, ∃ qs, listProjects w = Except.ok qs ∧ ∃ q ∈ qs, q.Key = k)

/-! ### garbageCollectEnvironments (pkg/exporter/store.go:53-123) -/

/-- The body of the `for k, env := range storedEnvironments` loop.
`compile` models the regexp engine: `compile pat = none` is a pattern on
which `regexp.MustCompile` panics, `some re` its compiled matcher.
`ProjectExists` and `GetProject` both look up `Project{Name:
env.ProjectName}.Key()`; the exists-check guards the lookup, so the
`none` arm of the match is unreachable. -/
def garbageCollectEnvironmentsStep (compile : String → Option (String → Bool))
    (s : StoreState) (k : EnvironmentKey) (env : Environment) :
    GCResult (StoreState × List StoreOp) :=
  let pk := (projectStub env.ProjectName).Key
  if s.ProjectExists pk then
    match s.GetProject pk with
    | none => GCResult.ok (s, [])  -- unreachable: ProjectExists pk is the same lookup
    | some p =>
      -- If the environment is not configured to be pulled anymore, delete it
      match compile p.PullEnvironmentsNameRegexp with
      | none => GCResult.panicked  -- regexp.MustCompile panics on an invalid pattern
      | some re =>
        if re env.Name then
          -- Check if the latest configuration of the project in store
          -- matches the environment one
          if env.OutputSparseStatusMetrics ≠ p.OutputSparseStatusMetrics ∨
              env.TagsRegexp ≠ p.PullEnvironmentsTagsRegexp then
            let env2 := { env with
              OutputSparseStatusMetrics := p.OutputSparseStatusMetrics
              TagsRegexp := p.PullEnvironmentsTagsRegexp }
            GCResult.ok (s.SetEnvironment env2, [StoreOp.setEnvironment env2])
          else
            GCResult.ok (s, [])
        else
          -- `!re.MatchString(env.Name)`: delete and continue
          GCResult.ok (s.DelEnvironment k, [StoreOp.delEnvironment k])
  else
    -- If the project does not exist anymore, delete the environment
    GCResult.ok (s.DelEnvironment k, [StoreOp.delEnvironment k])

/-- The loop of garbageCollectEnvironments over the snapshot read at the
start of the pass, threading the store state and the op trace. -/
def garbageCollectEnvironmentsGo (compile : String → Option (String → Bool)) :
    List (EnvironmentKey × Environment) → StoreState → List StoreOp →
    GCResult (StoreState × List StoreOp)
  | [], s, ops => GCResult.ok (s, ops)
  | (k, env) :: rest, s, ops =>
    match garbageCollectEnvironmentsStep compile s k env with
    | GCResult.panicked => GCResult.panicked
    | GCResult.ok (s2, stepOps) =>
      garbageCollectEnvironmentsGo compile rest s2 (ops ++ stepOps)

/-- garbageCollectEnvironments: iterate the stored environments. -/
def garbageCollectEnvironments (compile : String → Option (String → Bool))
    (s : StoreState) : GCResult (StoreState × List StoreOp) :=
  garbageCollectEnvironmentsGo compile s.Environments s []

/-! ### garbageCollectRefs (pkg/exporter/store.go:125-213)

The pass consults only the store and the configuration snapshot: it
takes no upstream-listing collaborator (the disabled upstream-discovery
code path is absent), so deletion is decided purely by project existence
and the configured ref-name pattern. -/

/-- The body of the `for k, ref := range storedRefs` loop. -/
def garbageCollectRefsStep (compile : String → Option (String → Bool))
    (s : StoreState) (k : RefKey) (ref : Ref) :
    GCResult (StoreState × List StoreOp) :=
  let pk := (projectStub ref.ProjectName).Key
  if s.ProjectExists pk then
    match s.GetProject pk with
    | none => GCResult.ok (s, [])  -- unreachable: ProjectExists pk is the same lookup
    | some p =>
      -- If the ref is not configured to be pulled anymore, delete the project ref
      match compile p.PullRefsRegexp with
      | none => GCResult.panicked  -- regexp.MustCompile panics on an invalid pattern
      | some re =>
        if re ref.Name then
          -- Check if the latest configuration of the project in store
          -- matches the ref one
          if ref.OutputSparseStatusMetrics ≠ p.OutputSparseStatusMetrics ∨
              ref.PullPipelineJobsEnabled ≠ p.PullPipelineJobsEnabled ∨
              ref.PullPipelineVariablesEnabled ≠ p.PullPipelineVariablesEnabled ∨
              ref.PullPipelineVariablesRegexp ≠ p.PullPipelineVariablesRegexp then
            let ref2 := { ref with
              OutputSparseStatusMetrics := p.OutputSparseStatusMetrics
              PullPipelineJobsEnabled := p.PullPipelineJobsEnabled
              PullPipelineVariablesEnabled := p.PullPipelineVariablesEnabled
              PullPipelineVariablesRegexp := p.PullPipelineVariablesRegexp }
            GCResult.ok (s.SetRef ref2, [StoreOp.setRef ref2])
          else
            GCResult.ok (s, [])
        else
          -- `!re.MatchString(ref.Name)`: delete and continue
          GCResult.ok (s.DelRef k, [StoreOp.delRef k])
  else
    -- If the project does not exist anymore, delete the project ref
    GCResult.ok (s.DelRef k, [StoreOp.delRef k])

/-- The loop of garbageCollectRefs over the snapshot read at the start
of the pass. -/
def garbageCollectRefsGo (compile : String → Option (String → Bool)) :
    List (RefKey × Ref) → StoreState → List StoreOp →
    GCResult (StoreState × List StoreOp)
  | [], s, ops => GCResult.ok (s, ops)
  | (k, ref) :: rest, s, ops =>
    match garbageCollectRefsStep compile s k ref with
    | GCResult.panicked => GCResult.panicked
    | GCResult.ok (s2, stepOps) =>
      garbageCollectRefsGo compile rest s2 (ops ++ stepOps)

/-- garbageCollectRefs: iterate the stored refs. -/
def garbageCollectRefs (compile : String → Option (String → Bool))
    (s : StoreState) : GCResult (StoreState × List StoreOp) :=
  garbageCollectRefsGo compile s.Refs s []

/-! ### garbageCollectMetrics (pkg/exporter/store.go:215-349) -/

/-- The first `switch m.Kind` of the metric GC: the six job-family
kinds whose metrics require `PullPipelineJobsEnabled`. -/
def isJobFamilyKind : MetricKind → Bool
  | MetricKind.jobArtifactSizeBytes => true
  | MetricKind.jobDurationSeconds => true
  | MetricKind.jobID => true
  | MetricKind.jobRunCount => true
  | MetricKind.jobStatus => true
  | MetricKind.jobTimestamp => true
  | _ => false

/-- The second `switch m.Kind` of the metric GC: the status-family kinds
subject to sparse-status filtering. -/
def isStatusFamilyKind : MetricKind → Bool
  | MetricKind.jobStatus => true
  | MetricKind.status => true
  | _ => false

/-- "In order to save some memory space we chose to have to recompose
the Ref the metric belongs to": `schemas.Ref{Kind:
schemas.RefKind(m.Labels["kind"]), ProjectName: m.Labels["project"],
Name: m.Labels["ref"]}.Key()`; each comma-ok / plain map read yields the
zero value "" when the label is absent. -/
def reconstructedRefKey (m : Metric) : RefKey :=
  (refStub ((lookupKey m.Labels "kind").getD "")
    ((lookupKey m.Labels "project").getD "")
    ((lookupKey m.Labels "ref").getD "")).Key

/-- The Environment key recomposed from the metric's labels:
`schemas.Environment{ProjectName: m.Labels["project"], Name:
m.Labels["environment"]}.Key()`. -/
def reconstructedEnvironmentKey (m : Metric) : EnvironmentKey :=
  (environmentStub ((lookupKey m.Labels "project").getD "")
    ((lookupKey m.Labels "environment").getD "")).Key

/-- pkg/exporter/store.go:241-251 — the malformed-label branch: a metric
without a `project` label, or with neither a `ref` nor an `environment`
label, is deleted.  This branch has no `continue` in the source, so the
loop body goes on with the branches below. -/
def metricMalformedLabelCheck (s : StoreState) (k : MetricKey) (m : Metric) :
    StoreState × List StoreOp :=
  if !(lookupKey m.Labels "project").isSome ||
      (!(lookupKey m.Labels "ref").isSome &&
        !(lookupKey m.Labels "environment").isSome) then
    (s.DelMetric k,
      [StoreOp.delMetric k "project-or-ref-and-environment-label-undefined"])
  else (s, ([] : List StoreOp))

/-- pkg/exporter/store.go:253-322 — the ref-label branch; `some` means
the metric was deleted and the iteration `continue`d, `none` that
control fell through to the environment-label branch. -/
def metricRefLabelCheck (storedRefs : List (RefKey × Ref))
    (acc : StoreState × List StoreOp) (k : MetricKey) (m : Metric) :
    Option (StoreState × List StoreOp) :=
  if (lookupKey m.Labels "ref").isSome then
    match lookupKey storedRefs (reconstructedRefKey m) with
    | none =>
      -- If the ref does not exist anymore, delete the metric
      some (acc.1.DelMetric k, acc.2 ++ [StoreOp.delMetric k "non-existent-ref"])
    | some ref =>
      -- Check if the pulling of jobs related metrics has been disabled
      if isJobFamilyKind m.Kind = true ∧ ref.PullPipelineJobsEnabled = false then
        some (acc.1.DelMetric k,
          acc.2 ++ [StoreOp.delMetric k "jobs-metrics-disabled-on-project-ref"])
      -- Check if 'output sparse statuses metrics' has been enabled
      else if isStatusFamilyKind m.Kind = true ∧ ref.OutputSparseStatusMetrics = true ∧
          m.Value ≠ 1 then
        some (acc.1.DelMetric k,
          acc.2 ++ [StoreOp.delMetric k "output-sparse-metrics-enabled-on-project-ref"])
      else none
  else none

/-- pkg/exporter/store.go:324-345 — the environment-label branch. -/
def metricEnvironmentLabelCheck (storedEnvironments : List (EnvironmentKey × Environment))
    (acc : StoreState × List StoreOp) (k : MetricKey) (m : Metric) :
    StoreState × List StoreOp :=
  if (lookupKey m.Labels "environment").isSome then
    match lookupKey storedEnvironments (reconstructedEnvironmentKey m) with
    | none =>
      -- If the environment does not exist anymore, delete the metric
      (acc.1.DelMetric k, acc.2 ++ [StoreOp.delMetric k "non-existent-environment"])
    | some _ => acc
  else acc

/-- The body of the `for k, m := range storedMetrics` loop: the
malformed-label check (which does not stop the iteration), then the
ref-label branch, then — only if the latter did not `continue` — the
environment-label branch. -/
def garbageCollectMetricsStep (storedRefs : List (RefKey × Ref))
    (storedEnvironments : List (EnvironmentKey × Environment))
    (s : StoreState) (k : MetricKey) (m : Metric) : StoreState × List StoreOp :=
  let first := metricMalformedLabelCheck s k m
  match metricRefLabelCheck storedRefs first k m with
  | some out => out
  | none => metricEnvironmentLabelCheck storedEnvironments first k m

/-- The loop of garbageCollectMetrics over the metric snapshot, against
the ref and environment snapshots read at the start of the pass. -/
def garbageCollectMetricsGo (storedRefs : List (RefKey × Ref))
    (storedEnvironments : List (EnvironmentKey × Environment)) :
    List (MetricKey × Metric) → StoreState → List StoreOp → StoreState × List StoreOp
  | [], s, ops => (s, ops)
  | (k, m) :: rest, s, ops =>
    let out := garbageCollectMetricsStep storedRefs storedEnvironments s k m
    garbageCollectMetricsGo storedRefs storedEnvironments rest out.1 (ops ++ out.2)

/-- garbageCollectMetrics: read the environment, ref and metric
snapshots, then iterate the metrics. -/
def garbageCollectMetrics (s : StoreState) : StoreState × List StoreOp :=
  garbageCollectMetricsGo s.Refs s.Environments s.Metrics s []

/-! ### Metric accessor wrappers (pkg/exporter/store.go:358-395)

Each wrapper calls one fallible store operation; a transport failure of
that call is injected as `transportFailure`.  On failure the Go wrapper
logs the error and returns; the returned `Option String` is that log
line's error field (`none` = nothing logged). -/

/-- storeGetMetric: on success the caller's metric is overwritten from
the store; on failure it is left untouched and the error is logged. -/
def storeGetMetric (s : StoreState) (transportFailure : Option String)
    (m : Metric) : Metric × Option String :=
  match transportFailure with
  | some e => (m, some e)
  | none => (s.GetMetric m, none)

/-- storeSetMetric: on failure the store is unchanged and the error is
logged. -/
def storeSetMetric (s : StoreState) (transportFailure : Option String)
    (m : Metric) : StoreState × Option String :=
  match transportFailure with
  | some e => (s, some e)
  | none => (s.SetMetric m, none)

/-- storeDelMetric: deletes by `m.Key()`; on failure the store is
unchanged and the error is logged. -/
def storeDelMetric (s : StoreState) (transportFailure : Option String)
    (m : Metric) : StoreState × Option String :=
  match transportFailure with
  | some e => (s, some e)
  | none => (s.DelMetric m.Key, none)

/-! ### The Redis-backed task queue (pkg/store/redis.go is not among the
sources; modelled from the spec §4.3, pinned by pkg/store/redis_test.go)

Time is an explicit `now : Nat`; a keepalive entry stores its absolute
expiry instant and is live while `now < expiry` (miniredis
`FastForward` past the TTL makes `KeepaliveExists` false). -/

/-- A Go `schemas.TaskType` is a string-typed constant. -/
abbrev TaskType := String

/-- The task type used throughout the queue tests. -/
def TaskTypePullMetrics : TaskType := "PullMetrics"

/-- The task type whose queue key the test pins. -/
def TaskTypeGarbageCollectEnvironments : TaskType := "GarbageCollectEnvironments"

/-- Pinned by TestGetRedisKeepaliveKey: `keepalive:<controllerID>`. -/
def getRedisKeepaliveKey (id : String) : String := "keepalive:" ++ id

/-- Pinned by TestGetRedisQueueKey: `task:<TaskType>:<workID>`. -/
def getRedisQueueKey (tt : TaskType) (workID : String) : String :=
  "task:" ++ tt ++ ":" ++ workID

/-- Modelled from the spec: the shared Redis state the task-queue
primitives touch — keepalive leases (controller id ↦ expiry instant),
claimed tasks (queue key ↦ claiming controller id) and the monotonic
executed-task counter. -/
structure RedisState where
  keepalives : List (String × Nat)
  tasks : List (String × String)
  executedTasksCount : Nat
deriving DecidableEq, Repr

/-- Modelled from the spec: `KeepaliveExists(id)` — the lease entry
exists and has not yet expired. -/
def RedisState.KeepaliveExists (r : RedisState) (now : Nat) (id : String) : Bool :=
  match lookupKey r.keepalives id with
  | some expiry => decide (now < expiry)
  | none => false

/-- Modelled from the spec: `SetKeepalive(id, ttl)` — idempotently
(re)create the lease with expiry `now + ttl`, reporting whether it
freshly transitioned from absent to present. -/
def RedisState.SetKeepalive (r : RedisState) (now : Nat) (id : String) (ttl : Nat) :
    Bool × RedisState :=
  (!(r.KeepaliveExists now id),
    { r with keepalives := insertKey r.keepalives id (now + ttl) })

/-- Modelled from the spec: `QueueTask(taskType, workID, controllerID)`
(§4.3) — claim the task if no entry exists; if an entry exists, claim it
only when the recorded controller's keepalive lease has expired
(steal), otherwise report it as owned elsewhere without writing. -/
def RedisState.QueueTask (r : RedisState) (now : Nat) (tt : TaskType)
    (workID controllerID : String) : Bool × RedisState :=
  let key := getRedisQueueKey tt workID
  match lookupKey r.tasks key with
  | none => (true, { r with tasks := insertKey r.tasks key controllerID })
  | some ownerID =>
    if r.KeepaliveExists now ownerID then
      (false, r)
    else
      (true, { r with tasks := insertKey r.tasks key controllerID })

/-- Modelled from the spec: `UnqueueTask(taskType, workID)` — release
the claim; the executed-task counter is incremented only when an entry
was actually removed, which is what TestRedisExecutedTasksCount pins
(two UnqueueTask calls on the same workID leave the counter at 1). -/
def RedisState.UnqueueTask (r : RedisState) (tt : TaskType) (workID : String) :
    RedisState :=
  let key := getRedisQueueKey tt workID
  match lookupKey r.tasks key with
  | some _ =>
    { r with tasks := eraseKey r.tasks key
             executedTasksCount := r.executedTasksCount + 1 }
  | none => r

/-- `CurrentlyQueuedTasksCount()`. -/
def RedisState.CurrentlyQueuedTasksCount (r : RedisState) : Nat := r.tasks.length

/-- `ExecutedTasksCount()`. -/
def RedisState.ExecutedTasksCount (r : RedisState) : Nat := r.executedTasksCount

/-! ### Concrete fixtures used to evaluate the theorems on closed inputs -/

/-- A regexp engine for closed evaluations: every pattern compiles, and
matches exactly itself. -/
def exactMatchEngine : String → Option (String → Bool) :=
  fun pat => some (fun str => pat == str)

/-- A regexp engine on which every pattern fails to compile (models an
invalid pattern reaching `regexp.MustCompile`). -/
def rejectAllEngine : String → Option (String → Bool) := fun _ => none

/-- Spec scenario for the Projects GC: "a/b" configured, "c/d" neither
configured nor wildcard-discoverable. -/
def c1store : StoreState :=
  ⟨[("a/b", projectStub "a/b"), ("c/d", projectStub "c/d")], [], [], []⟩

/-- Configuration for the Projects GC scenario. -/
def c1config : Config := ⟨[projectStub "a/b"], []⟩

/-- The external listing client for the Projects GC scenario: no
wildcards are configured, so it is never consulted. -/
def c1listProjects : String → Except String (List Project) :=
  fun _ => Except.ok []

/-- Spec scenario for the metric GC ref-label branch: the resolved Ref
has `PullPipelineJobsEnabled = false`. -/
def c2ref : Ref := refStub "branch" "p" "main"

/-- A job-status metric attributed to `c2ref` by its labels. -/
def c2metric : Metric :=
  ⟨MetricKind.jobStatus, [("project", "p"), ("kind", "branch"), ("ref", "main")], 1⟩

/-- Store holding `c2ref` and `c2metric`. -/
def c2s : StoreState := ⟨[], [], [(c2ref.Key, c2ref)], [(c2metric.Key, c2metric)]⟩

/-- The store left by the Projects-GC scenario: only "a/b" survives. -/
def c1after : StoreState := ⟨[("a/b", projectStub "a/b")], [], [], []⟩

/-- Redis state with a live keepalive for "controller1" expiring at
instant 1 (TTL 1 taken at instant 0). -/
def c3r0 : RedisState := ⟨[("controller1", 1)], [], 0⟩

/-- `c3r0` after "controller1" claimed task ("PullMetrics", "foo"). -/
def c3r1 : RedisState :=
  ⟨[("controller1", 1)], [("task:PullMetrics:foo", "controller1")], 0⟩

/-- A project whose configured environment-name pattern is "prod" and
whose derived sparse flag and tags pattern drifted from the cache below. -/
def c4p : Project :=
  { Name := "p", PullEnvironmentsNameRegexp := "prod",
    PullEnvironmentsTagsRegexp := "t2", PullRefsRegexp := "main",
    OutputSparseStatusMetrics := true, PullPipelineJobsEnabled := true,
    PullPipelineVariablesEnabled := false, PullPipelineVariablesRegexp := "v2" }

/-- An environment of `c4p` with stale cached configuration. -/
def c4env : Environment :=
  { ProjectName := "p", Name := "prod", ID := 1, ExternalURL := "u",
    OutputSparseStatusMetrics := false, TagsRegexp := "t1" }

/-- Store holding `c4p` and `c4env`. -/
def c4s : StoreState := ⟨[("p", c4p)], [(c4env.Key, c4env)], [], []⟩

/-- Store without the owning project. -/
def c4sOrphan : StoreState := ⟨[], [(c4env.Key, c4env)], [], []⟩

/-- A ref of `c4p` with a stale cached `PullPipelineJobsEnabled`. -/
def c5ref : Ref :=
  { Kind := "branch", ProjectName := "p", Name := "main",
    OutputSparseStatusMetrics := true, PullPipelineJobsEnabled := false,
    PullPipelineVariablesEnabled := false, PullPipelineVariablesRegexp := "v2" }

/-- Store holding `c4p` and `c5ref`. -/
def c5s : StoreState := ⟨[("p", c4p)], [], [(c5ref.Key, c5ref)], []⟩

/-- A metric lacking the `project` label. -/
def c6metric : Metric := ⟨MetricKind.coverage, [("foo", "bar")], 5⟩

/-- Store holding only `c6metric`. -/
def c6s : StoreState := ⟨[], [], [], [(c6metric.Key, c6metric)]⟩

/-- The TestRedisExecutedTasksCount scenario: queue "foo" and "bar",
then unqueue "foo" twice; `c7r3` is the state after the first unqueue. -/
def c7r3 : RedisState :=
  ((((⟨[], [], 0⟩ : RedisState).QueueTask 0 TaskTypePullMetrics "foo" "").2.QueueTask
      0 TaskTypePullMetrics "bar" "").2.UnqueueTask TaskTypePullMetrics "foo")

/-- `c7r3` after the second `UnqueueTask` on the already-unqueued "foo". -/
def c7r4 : RedisState := c7r3.UnqueueTask TaskTypePullMetrics "foo"

/-- A metric lacking `project` but carrying a `ref` label. -/
def c9metric : Metric := ⟨MetricKind.coverage, [("ref", "main")], 0⟩

/-- Store holding only `c9metric`. -/
def c9s : StoreState := ⟨[], [], [], [(c9metric.Key, c9metric)]⟩

/-- Store for the invalid-pattern scenario: a project that exists, one
environment and one ref owned by it. -/
def c10s : StoreState :=
  ⟨[("p", projectStub "p")],
    [(("p", "e"), environmentStub "p" "e")],
    [(("branch", "p", "main"), refStub "branch" "p" "main")], []⟩

/-! ### Association-list lemmas -/

theorem mem_eraseKey {κ ν : Type} [DecidableEq κ] {m : List (κ × ν)} {k : κ}
    {kv : κ × ν} : kv ∈ eraseKey m k ↔ kv ∈ m ∧ kv.1 ≠ k := by
  simp [eraseKey, List.mem_filter]

theorem lookupKey_eraseKey_self {κ ν : Type} [DecidableEq κ] (m : List (κ × ν))
    (k : κ) : lookupKey (eraseKey m k) k = none := by
  induction m with
  | nil => rfl
  | cons kv rest ih =>
    by_cases h : kv.1 = k
    · simpa [eraseKey, List.filter_cons, h] using ih
    · simpa [eraseKey, List.filter_cons, h, lookupKey] using ih

theorem lookupKey_eraseKey_none {κ ν : Type} [DecidableEq κ] {m : List (κ × ν)}
    {k k2 : κ} (h : lookupKey m k = none) :
    lookupKey (eraseKey m k2) k = none := by
  induction m with
  | nil => rfl
  | cons kv rest ih =>
    by_cases hk : kv.1 = k
    · simp [lookupKey, hk] at h
    · simp only [lookupKey, hk, if_false] at h
      by_cases hk2 : kv.1 = k2
      · simpa [eraseKey, List.filter_cons, hk2] using ih h
      · simpa [eraseKey, List.filter_cons, hk2, lookupKey, hk] using ih h

theorem eraseKey_idem {κ ν : Type} [DecidableEq κ] (m : List (κ × ν)) (k : κ) :
    eraseKey (eraseKey m k) k = eraseKey m k := by
  induction m with
  | nil => rfl
  | cons kv rest ih =>
    by_cases h : kv.1 = k
    · simp [eraseKey, List.filter_cons, h]
    · simp [eraseKey, List.filter_cons, h]

theorem eraseKey_eq_self_of_not_mem_keys {κ ν : Type} [DecidableEq κ]
    {m : List (κ × ν)} {k : κ} (h : k ∉ m.map Prod.fst) : eraseKey m k = m := by
  induction m with
  | nil => rfl
  | cons kv rest ih =>
    simp only [List.map_cons, List.mem_cons, not_or] at h
    have hk : kv.1 ≠ k := fun he => h.1 he.symm
    have hrest := ih h.2
    calc eraseKey (kv :: rest) k = kv :: eraseKey rest k := by
          simp [eraseKey, List.filter_cons, hk]
      _ = kv :: rest := by rw [hrest]

theorem eraseKey_length {κ ν : Type} [DecidableEq κ] {m : List (κ × ν)} {k : κ}
    (hnd : (m.map Prod.fst).Nodup) (h : (lookupKey m k).isSome = true) :
    (eraseKey m k).length + 1 = m.length := by
  induction m with
  | nil => simp [lookupKey] at h
  | cons kv rest ih =>
    simp only [List.map_cons, List.nodup_cons] at hnd
    by_cases hk : kv.1 = k
    · have : eraseKey (kv :: rest) k = rest := by
        have hrest : eraseKey rest k = rest :=
          eraseKey_eq_self_of_not_mem_keys (hk ▸ hnd.1)
        simp [eraseKey, List.filter_cons, hk] at hrest ⊢
        exact hrest
      simp [this]
    · simp only [lookupKey, hk, if_false] at h
      have := ih hnd.2 h
      simp [eraseKey, List.filter_cons, hk] at this ⊢
      omega

theorem lookupKey_insertKey_self {κ ν : Type} [DecidableEq κ] (m : List (κ × ν))
    (k : κ) (v : ν) : lookupKey (insertKey m k v) k = some v := by
  simp [insertKey, lookupKey]

theorem mem_foldl_eraseKey {κ ν α : Type} [DecidableEq κ] (f : α → κ)
    (l : List α) (m : List (κ × ν)) (kv : κ × ν) :
    kv ∈ l.foldl (fun acc a => eraseKey acc (f a)) m ↔
      kv ∈ m ∧ ∀ a ∈ l, f a ≠ kv.1 := by
  induction l generalizing m with
  | nil => simp
  | cons a rest ih =>
    rw [List.foldl_cons, ih (eraseKey m (f a))]
    constructor
    · rintro ⟨hm, hrest⟩
      rcases mem_eraseKey.mp hm with ⟨hm2, hne⟩
      exact ⟨hm2, by
        intro b hb
        rcases List.mem_cons.mp hb with rfl | hb2
        · exact fun he => hne he.symm
        · exact hrest b hb2⟩
    · rintro ⟨hm, hall⟩
      refine ⟨mem_eraseKey.mpr ⟨hm, fun he => hall a (List.mem_cons_self a rest) he.symm⟩, ?_⟩
      intro b hb
      exact hall b (List.mem_cons_of_mem a hb)

/-! ### Claim C8 — the metric accessor wrappers on store errors -/

/-- Claim C8: storeGetMetric, storeSetMetric and storeDelMetric never
propagate or panic on a store error — for every metric and every error
result of the underlying store call, each wrapper logs the error and
returns normally, with no further effect (the caller's metric and the
store state are left untouched). -/
theorem storeMetricWrappers_log_and_return_on_error (s : StoreState) (e : String)
    (m : Metric) :
    storeGetMetric s (some e) m = (m, some e) ∧
    storeSetMetric s (some e) m = (s, some e) ∧
    storeDelMetric s (some e) m = (s, some e) :=
  ⟨rfl, rfl, rfl⟩

/-! ### Claim C7 — UnqueueTask and the two counters -/

/-- Claim C7 counterexample: replaying TestRedisExecutedTasksCount —
queue "foo" and "bar", unqueue "foo", then unqueue "foo" again — the
second call on the already-unqueued key leaves ExecutedTasksCount at 1
(the state is entirely unchanged), whereas the claim requires every call
to strictly increase it by one. -/
theorem unqueueTask_executedCount_counterexample :
    c7r3.ExecutedTasksCount = 1 ∧ c7r4 = c7r3 ∧
    ¬ c7r4.ExecutedTasksCount = c7r3.ExecutedTasksCount + 1 := by
  refine ⟨by decide, by decide, by decide⟩

/-- Claim C7 (amended): UnqueueTask on a present queue entry decreases
CurrentlyQueuedTasksCount by exactly one and increases
ExecutedTasksCount by exactly one; on an already-unqueued key it is a
complete no-op — neither counter changes (the executed counter is
incremented only when an entry was actually removed). -/
theorem unqueueTask_counts_amended (r : RedisState) (tt : TaskType) (workID : String)
    (hnd : (r.tasks.map Prod.fst).Nodup) :
    ((lookupKey r.tasks (getRedisQueueKey tt workID)).isSome = true →
      (r.UnqueueTask tt workID).CurrentlyQueuedTasksCount + 1 =
        r.CurrentlyQueuedTasksCount ∧
      (r.UnqueueTask tt workID).ExecutedTasksCount = r.ExecutedTasksCount + 1) ∧
    (lookupKey r.tasks (getRedisQueueKey tt workID) = none →
      r.UnqueueTask tt workID = r) := by
  constructor
  · intro h
    rcases hs : lookupKey r.tasks (getRedisQueueKey tt workID) with _ | v
    · rw [hs] at h; simp at h
    · have hlen := eraseKey_length (m := r.tasks) (k := getRedisQueueKey tt workID)
        hnd (by rw [hs]; rfl)
      constructor
      · simpa [RedisState.UnqueueTask, hs, RedisState.CurrentlyQueuedTasksCount]
          using hlen
      · simp [RedisState.UnqueueTask, hs, RedisState.ExecutedTasksCount]
  · intro h
    simp [RedisState.UnqueueTask, h]

/-- Closed evaluation of the amended C7 statement on a one-entry queue
and on an empty queue. -/
theorem unqueueTask_counts_amended_witness :
    ((⟨[], [("task:PullMetrics:foo", "c")], 5⟩ :
        RedisState).UnqueueTask TaskTypePullMetrics "foo").CurrentlyQueuedTasksCount + 1 = 1 ∧
    ((⟨[], [("task:PullMetrics:foo", "c")], 5⟩ :
        RedisState).UnqueueTask TaskTypePullMetrics "foo").ExecutedTasksCount = 6 ∧
    (⟨[], [], 5⟩ : RedisState).UnqueueTask TaskTypePullMetrics "bar" =
      (⟨[], [], 5⟩ : RedisState) := by
  have h1 := unqueueTask_counts_amended
    ⟨[], [("task:PullMetrics:foo", "c")], 5⟩ TaskTypePullMetrics "foo" (by decide)
  have h2 := unqueueTask_counts_amended ⟨[], [], 5⟩ TaskTypePullMetrics "bar" (by decide)
  exact ⟨(h1.1 (by decide)).1, (h1.1 (by decide)).2, h2.2 (by decide)⟩

/-! ### Claim C3 — QueueTask lease exclusion and steal -/

/-- After a successful claim, the queue entry records the claiming
controller. -/
theorem queueTask_claimed_lookup {r : RedisState} {now : Nat} {tt : TaskType}
    {workID cid : String} {r2 : RedisState}
    (h : r.QueueTask now tt workID cid = (true, r2)) :
    lookupKey r2.tasks (getRedisQueueKey tt workID) = some cid := by
  rcases hl : lookupKey r.tasks (getRedisQueueKey tt workID) with _ | owner
  · simp [RedisState.QueueTask, hl] at h
    rw [← h]
    exact lookupKey_insertKey_self ..
  · by_cases hlive : r.KeepaliveExists now owner = true
    · simp [RedisState.QueueTask, hl, hlive] at h
    · simp [RedisState.QueueTask, hl, hlive] at h
      rw [← h]
      exact lookupKey_insertKey_self ..

/-- Claim C3: once controller A holds the claim on (tt, workID), a
QueueTask by controller B returns (false, ·) without writing while A's
keepalive lease is live, and once A's lease has expired it returns
(true, ·) with the entry overwritten to record B (steal). -/
theorem queueTask_lease_exclusion_and_steal (r : RedisState) (now1 now2 : Nat)
    (tt : TaskType) (workID A B : String) (r1 : RedisState)
    (h : r.QueueTask now1 tt workID A = (true, r1)) :
    (r1.KeepaliveExists now2 A = true →
      r1.QueueTask now2 tt workID B = (false, r1)) ∧
    (r1.KeepaliveExists now2 A = false →
      (r1.QueueTask now2 tt workID B).1 = true ∧
      lookupKey (r1.QueueTask now2 tt workID B).2.tasks
        (getRedisQueueKey tt workID) = some B) := by
  have hlook : lookupKey r1.tasks (getRedisQueueKey tt workID) = some A :=
    queueTask_claimed_lookup h
  constructor
  · intro hlive
    simp [RedisState.QueueTask, hlook, hlive]
  · intro hdead
    refine ⟨by simp [RedisState.QueueTask, hlook, hdead], ?_⟩
    simp only [RedisState.QueueTask, hlook, hdead, if_false, Bool.false_eq_true]
    exact lookupKey_insertKey_self ..

/-- Closed evaluation of C3: "controller1" claims with a lease expiring
at instant 1; "controller2" is refused at instant 0 and steals at
instant 2. -/
theorem queueTask_lease_exclusion_and_steal_witness :
    (c3r1.QueueTask 0 TaskTypePullMetrics "foo" "controller2" = (false, c3r1)) ∧
    ((c3r1.QueueTask 2 TaskTypePullMetrics "foo" "controller2").1 = true ∧
      lookupKey (c3r1.QueueTask 2 TaskTypePullMetrics "foo" "controller2").2.tasks
        (getRedisQueueKey TaskTypePullMetrics "foo") = some "controller2") := by
  have h := queueTask_lease_exclusion_and_steal c3r0 0 0 TaskTypePullMetrics
    "foo" "controller1" "controller2" c3r1 (by decide)
  have h2 := queueTask_lease_exclusion_and_steal c3r0 0 2 TaskTypePullMetrics
    "foo" "controller1" "controller2" c3r1 (by decide)
  exact ⟨h.1 (by decide), h2.2 (by decide)⟩

/-! ### Claim C4 — order of checks in the Environments GC -/

/-- Claim C4: for every stored Environment the pass applies its checks
in order — owning Project missing from the store: delete and stop;
name not matching the Project's configured environment-name pattern:
delete and stop; cached OutputSparseStatusMetrics or TagsRegexp drifted:
overwrite both cached fields and persist; no drift: leave untouched.
Drift-repair is reached only by Environments surviving both deletion
checks. -/
theorem garbageCollectEnvironmentsStep_check_order
    (compile : String → Option (String → Bool)) (s : StoreState)
    (k : EnvironmentKey) (env : Environment) :
    (s.ProjectExists (projectStub env.ProjectName).Key = false →
      garbageCollectEnvironmentsStep compile s k env =
        GCResult.ok (s.DelEnvironment k, [StoreOp.delEnvironment k])) ∧
    (∀ p re, s.GetProject (projectStub env.ProjectName).Key = some p →
      compile p.PullEnvironmentsNameRegexp = some re →
      re env.Name = false →
      garbageCollectEnvironmentsStep compile s k env =
        GCResult.ok (s.DelEnvironment k, [StoreOp.delEnvironment k])) ∧
    (∀ p re, s.GetProject (projectStub env.ProjectName).Key = some p →
      compile p.PullEnvironmentsNameRegexp = some re →
      re env.Name = true →
      (env.OutputSparseStatusMetrics ≠ p.OutputSparseStatusMetrics ∨
        env.TagsRegexp ≠ p.PullEnvironmentsTagsRegexp) →
      garbageCollectEnvironmentsStep compile s k env =
        GCResult.ok
          (s.SetEnvironment
            { env with OutputSparseStatusMetrics := p.OutputSparseStatusMetrics
                       TagsRegexp := p.PullEnvironmentsTagsRegexp },
            [StoreOp.setEnvironment
              { env with OutputSparseStatusMetrics := p.OutputSparseStatusMetrics
                         TagsRegexp := p.PullEnvironmentsTagsRegexp }])) ∧
    (∀ p re, s.GetProject (projectStub env.ProjectName).Key = some p →
      compile p.PullEnvironmentsNameRegexp = some re →
      re env.Name = true →
      env.OutputSparseStatusMetrics = p.OutputSparseStatusMetrics →
      env.TagsRegexp = p.PullEnvironmentsTagsRegexp →
      garbageCollectEnvironmentsStep compile s k env = GCResult.ok (s, [])) := by
  refine ⟨?_, ?_, ?_, ?_⟩
  · intro hmiss
    simp [garbageCollectEnvironmentsStep, hmiss]
  · intro p re hp hre hmatch
    have hp2 : lookupKey s.Projects (projectStub env.ProjectName).Key = some p := hp
    simp [garbageCollectEnvironmentsStep, StoreState.ProjectExists,
      StoreState.GetProject, hp2, hre, hmatch]
  · intro p re hp hre hmatch hdrift
    have hp2 : lookupKey s.Projects (projectStub env.ProjectName).Key = some p := hp
    rcases hdrift with h | h <;>
      simp [garbageCollectEnvironmentsStep, StoreState.ProjectExists,
        StoreState.GetProject, hp2, hre, hmatch, h]
  · intro p re hp hre hmatch heq1 heq2
    have hp2 : lookupKey s.Projects (projectStub env.ProjectName).Key = some p := hp
    simp [garbageCollectEnvironmentsStep, StoreState.ProjectExists,
      StoreState.GetProject, hp2, hre, hmatch, heq1, heq2]

/-- Closed evaluation of C4: with no owning project the environment is
deleted; with a drifted cache both fields are refreshed and persisted. -/
theorem garbageCollectEnvironmentsStep_check_order_witness :
    garbageCollectEnvironmentsStep exactMatchEngine c4sOrphan c4env.Key c4env =
      GCResult.ok (c4sOrphan.DelEnvironment c4env.Key,
        [StoreOp.delEnvironment c4env.Key]) ∧
    garbageCollectEnvironmentsStep exactMatchEngine c4s c4env.Key c4env =
      GCResult.ok
        (c4s.SetEnvironment
          { c4env with OutputSparseStatusMetrics := true, TagsRegexp := "t2" },
          [StoreOp.setEnvironment
            { c4env with OutputSparseStatusMetrics := true, TagsRegexp := "t2" }]) := by
  constructor
  · exact (garbageCollectEnvironmentsStep_check_order
      exactMatchEngine c4sOrphan c4env.Key c4env).1 (by decide)
  · exact (garbageCollectEnvironmentsStep_check_order
      exactMatchEngine c4s c4env.Key c4env).2.2.1 c4p (fun str => "prod" == str)
      (by decide) rfl (by decide) (by decide)

/-! ### Claim C5 — Refs GC: regex-only deletion, four fields refreshed
as a unit -/

/-- Claim C5: the Refs GC decides deletion only from project existence
in the store and the regexp match of the ref name against the Project's
configured ref pattern (the pass consults no upstream oracle — see
`garbageCollectRefs`, which takes only the store and the pattern
engine); a Ref surviving both checks whose cached fields drifted in any
of the four cached fields has all four rewritten together by a single
SetRef call; with no drift it is left untouched.  The four conjuncts
cover every non-panicking outcome of the loop body, so no other
behaviour is possible. -/
theorem garbageCollectRefsStep_deletion_and_refresh
    (compile : String → Option (String → Bool)) (s : StoreState)
    (k : RefKey) (ref : Ref) :
    (s.ProjectExists (projectStub ref.ProjectName).Key = false →
      garbageCollectRefsStep compile s k ref =
        GCResult.ok (s.DelRef k, [StoreOp.delRef k])) ∧
    (∀ p re, s.GetProject (projectStub ref.ProjectName).Key = some p →
      compile p.PullRefsRegexp = some re →
      re ref.Name = false →
      garbageCollectRefsStep compile s k ref =
        GCResult.ok (s.DelRef k, [StoreOp.delRef k])) ∧
    (∀ p re, s.GetProject (projectStub ref.ProjectName).Key = some p →
      compile p.PullRefsRegexp = some re →
      re ref.Name = true →
      (ref.OutputSparseStatusMetrics ≠ p.OutputSparseStatusMetrics ∨
        ref.PullPipelineJobsEnabled ≠ p.PullPipelineJobsEnabled ∨
        ref.PullPipelineVariablesEnabled ≠ p.PullPipelineVariablesEnabled ∨
        ref.PullPipelineVariablesRegexp ≠ p.PullPipelineVariablesRegexp) →
      garbageCollectRefsStep compile s k ref =
        GCResult.ok
          (s.SetRef
            { ref with OutputSparseStatusMetrics := p.OutputSparseStatusMetrics
                       PullPipelineJobsEnabled := p.PullPipelineJobsEnabled
                       PullPipelineVariablesEnabled := p.PullPipelineVariablesEnabled
                       PullPipelineVariablesRegexp := p.PullPipelineVariablesRegexp },
            [StoreOp.setRef
              { ref with OutputSparseStatusMetrics := p.OutputSparseStatusMetrics
                         PullPipelineJobsEnabled := p.PullPipelineJobsEnabled
                         PullPipelineVariablesEnabled := p.PullPipelineVariablesEnabled
                         PullPipelineVariablesRegexp := p.PullPipelineVariablesRegexp }])) ∧
    (∀ p re, s.GetProject (projectStub ref.ProjectName).Key = some p →
      compile p.PullRefsRegexp = some re →
      re ref.Name = true →
      ref.OutputSparseStatusMetrics = p.OutputSparseStatusMetrics →
      ref.PullPipelineJobsEnabled = p.PullPipelineJobsEnabled →
      ref.PullPipelineVariablesEnabled = p.PullPipelineVariablesEnabled →
      ref.PullPipelineVariablesRegexp = p.PullPipelineVariablesRegexp →
      garbageCollectRefsStep compile s k ref = GCResult.ok (s, [])) := by
  refine ⟨?_, ?_, ?_, ?_⟩
  · intro hmiss
    simp [garbageCollectRefsStep, hmiss]
  · intro p re hp hre hmatch
    have hp2 : lookupKey s.Projects (projectStub ref.ProjectName).Key = some p := hp
    simp [garbageCollectRefsStep, StoreState.ProjectExists,
      StoreState.GetProject, hp2, hre, hmatch]
  · intro p re hp hre hmatch hdrift
    have hp2 : lookupKey s.Projects (projectStub ref.ProjectName).Key = some p := hp
    rcases hdrift with h | h | h | h <;>
      simp [garbageCollectRefsStep, StoreState.ProjectExists,
        StoreState.GetProject, hp2, hre, hmatch, h]
  · intro p re hp hre hmatch heq1 heq2 heq3 heq4
    have hp2 : lookupKey s.Projects (projectStub ref.ProjectName).Key = some p := hp
    simp [garbageCollectRefsStep, StoreState.ProjectExists,
      StoreState.GetProject, hp2, hre, hmatch, heq1, heq2, heq3, heq4]

/-- Closed evaluation of C5: a Ref passing both checks with a stale
cached PullPipelineJobsEnabled has all four cached fields rewritten at
once. -/
theorem garbageCollectRefsStep_deletion_and_refresh_witness :
    garbageCollectRefsStep exactMatchEngine c5s c5ref.Key c5ref =
      GCResult.ok
        (c5s.SetRef
          { c5ref with OutputSparseStatusMetrics := true,
                       PullPipelineJobsEnabled := true,
                       PullPipelineVariablesEnabled := false,
                       PullPipelineVariablesRegexp := "v2" },
          [StoreOp.setRef
            { c5ref with OutputSparseStatusMetrics := true,
                         PullPipelineJobsEnabled := true,
                         PullPipelineVariablesEnabled := false,
                         PullPipelineVariablesRegexp := "v2" }]) := by
  exact (garbageCollectRefsStep_deletion_and_refresh
    exactMatchEngine c5s c5ref.Key c5ref).2.2.1 c4p (fun str => "main" == str)
    (by decide) rfl (by decide) (by decide)

/-! ### Claim C10 — invalid configured patterns panic the pass -/

/-- A non-panicking Environments-GC loop body never touches the stored
projects. -/
theorem garbageCollectEnvironmentsStep_ok_Projects
    {compile : String → Option (String → Bool)} {s : StoreState}
    {k : EnvironmentKey} {env : Environment} {s2 : StoreState} {ops : List StoreOp}
    (h : garbageCollectEnvironmentsStep compile s k env = GCResult.ok (s2, ops)) :
    s2.Projects = s.Projects := by
  simp only [garbageCollectEnvironmentsStep] at h
  repeat' split at h
  all_goals
    first
      | (simp only [GCResult.ok.injEq, Prod.mk.injEq] at h
         obtain ⟨h1, -⟩ := h
         subst h1
         rfl)
      | simp at h

/-- A non-panicking Refs-GC loop body never touches the stored
projects. -/
theorem garbageCollectRefsStep_ok_Projects
    {compile : String → Option (String → Bool)} {s : StoreState}
    {k : RefKey} {ref : Ref} {s2 : StoreState} {ops : List StoreOp}
    (h : garbageCollectRefsStep compile s k ref = GCResult.ok (s2, ops)) :
    s2.Projects = s.Projects := by
  simp only [garbageCollectRefsStep] at h
  repeat' split at h
  all_goals
    first
      | (simp only [GCResult.ok.injEq, Prod.mk.injEq] at h
         obtain ⟨h1, -⟩ := h
         subst h1
         rfl)
      | simp at h

/-- If some environment of the iteration list is owned by a stored
project whose configured environment-name pattern does not compile, the
Environments-GC loop panics. -/
theorem garbageCollectEnvironmentsGo_panics
    {compile : String → Option (String → Bool)} {k : EnvironmentKey}
    {env : Environment} {p : Project}
    (hcomp : compile p.PullEnvironmentsNameRegexp = none) :
    ∀ (l : List (EnvironmentKey × Environment)) (s : StoreState) (ops : List StoreOp),
      (k, env) ∈ l →
      lookupKey s.Projects (projectStub env.ProjectName).Key = some p →
      garbageCollectEnvironmentsGo compile l s ops = GCResult.panicked := by
  intro l
  induction l with
  | nil => intro s ops hmem _; simp at hmem
  | cons kv rest ih =>
    intro s ops hmem hlook
    obtain ⟨k2, env2⟩ := kv
    rcases List.mem_cons.mp hmem with heq | hmem2
    · injection heq with h1 h2
      subst h1
      subst h2
      have hstep : garbageCollectEnvironmentsStep compile s k env = GCResult.panicked := by
        simp [garbageCollectEnvironmentsStep, StoreState.ProjectExists,
          StoreState.GetProject, hlook, hcomp]
      simp [garbageCollectEnvironmentsGo, hstep]
    · cases hstep : garbageCollectEnvironmentsStep compile s k2 env2 with
      | panicked => simp [garbageCollectEnvironmentsGo, hstep]
      | ok out =>
        obtain ⟨s2, stepOps⟩ := out
        have hproj : s2.Projects = s.Projects :=
          garbageCollectEnvironmentsStep_ok_Projects hstep
        have hrec := ih s2 (ops ++ stepOps) hmem2 (by rw [hproj]; exact hlook)
        simp [garbageCollectEnvironmentsGo, hstep, hrec]

/-- If some ref of the iteration list is owned by a stored project whose
configured ref pattern does not compile, the Refs-GC loop panics. -/
theorem garbageCollectRefsGo_panics
    {compile : String → Option (String → Bool)} {k : RefKey}
    {ref : Ref} {p : Project}
    (hcomp : compile p.PullRefsRegexp = none) :
    ∀ (l : List (RefKey × Ref)) (s : StoreState) (ops : List StoreOp),
      (k, ref) ∈ l →
      lookupKey s.Projects (projectStub ref.ProjectName).Key = some p →
      garbageCollectRefsGo compile l s ops = GCResult.panicked := by
  intro l
  induction l with
  | nil => intro s ops hmem _; simp at hmem
  | cons kv rest ih =>
    intro s ops hmem hlook
    obtain ⟨k2, ref2⟩ := kv
    rcases List.mem_cons.mp hmem with heq | hmem2
    · injection heq with h1 h2
      subst h1
      subst h2
      have hstep : garbageCollectRefsStep compile s k ref = GCResult.panicked := by
        simp [garbageCollectRefsStep, StoreState.ProjectExists,
          StoreState.GetProject, hlook, hcomp]
      simp [garbageCollectRefsGo, hstep]
    · cases hstep : garbageCollectRefsStep compile s k2 ref2 with
      | panicked => simp [garbageCollectRefsGo, hstep]
      | ok out =>
        obtain ⟨s2, stepOps⟩ := out
        have hproj : s2.Projects = s.Projects :=
          garbageCollectRefsStep_ok_Projects hstep
        have hrec := ih s2 (ops ++ stepOps) hmem2 (by rw [hproj]; exact hlook)
        simp [garbageCollectRefsGo, hstep, hrec]

/-- Claim C10: both passes compile the owning Project's configured
pattern with `regexp.MustCompile`; whenever a stored Environment (resp.
Ref) is owned by a stored Project whose configured pattern is not a
valid regular expression, the whole pass panics — it does not return an
error (`GCResult` has no error outcome reachable here: the only
alternatives are `ok` and `panicked`). -/
theorem garbageCollect_invalid_pattern_panics
    (compile : String → Option (String → Bool)) (s : StoreState) :
    (∀ k env p, (k, env) ∈ s.Environments →
      s.GetProject (projectStub env.ProjectName).Key = some p →
      compile p.PullEnvironmentsNameRegexp = none →
      garbageCollectEnvironments compile s = GCResult.panicked) ∧
    (∀ k ref p, (k, ref) ∈ s.Refs →
      s.GetProject (projectStub ref.ProjectName).Key = some p →
      compile p.PullRefsRegexp = none →
      garbageCollectRefs compile s = GCResult.panicked) := by
  constructor
  · intro k env p hmem hlook hcomp
    exact garbageCollectEnvironmentsGo_panics hcomp s.Environments s [] hmem hlook
  · intro k ref p hmem hlook hcomp
    exact garbageCollectRefsGo_panics hcomp s.Refs s [] hmem hlook

/-- Closed evaluation of C10 on a store whose project's patterns do not
compile. -/
theorem garbageCollect_invalid_pattern_panics_witness :
    garbageCollectEnvironments rejectAllEngine c10s = GCResult.panicked ∧
    garbageCollectRefs rejectAllEngine c10s = GCResult.panicked := by
  have h := garbageCollect_invalid_pattern_panics rejectAllEngine c10s
  exact ⟨h.1 ("p", "e") (environmentStub "p" "e") (projectStub "p")
      (by decide) (by decide) rfl,
    h.2 ("branch", "p", "main") (refStub "branch" "p" "main") (projectStub "p")
      (by decide) (by decide) rfl⟩

/-! ### Metric-GC helper lemmas -/

/-- The malformed-label check preserves the absence of any metric key. -/
theorem metricMalformedLabelCheck_lookup_none {s : StoreState} {k : MetricKey}
    {m : Metric} {k3 : MetricKey} (h : lookupKey s.Metrics k3 = none) :
    lookupKey (metricMalformedLabelCheck s k m).1.Metrics k3 = none := by
  unfold metricMalformedLabelCheck
  split
  · exact lookupKey_eraseKey_none h
  · exact h

/-- A deleting ref-label check preserves the absence of any metric key. -/
theorem metricRefLabelCheck_lookup_none {storedRefs : List (RefKey × Ref)}
    {acc : StoreState × List StoreOp} {k : MetricKey} {m : Metric}
    {out : StoreState × List StoreOp} {k3 : MetricKey}
    (hsome : metricRefLabelCheck storedRefs acc k m = some out)
    (h : lookupKey acc.1.Metrics k3 = none) :
    lookupKey out.1.Metrics k3 = none := by
  unfold metricRefLabelCheck at hsome
  repeat' split at hsome
  all_goals first
    | (injection hsome with h2
       subst h2
       exact lookupKey_eraseKey_none h)
    | simp at hsome

/-- The environment-label check preserves the absence of any metric key. -/
theorem metricEnvironmentLabelCheck_lookup_none
    {storedEnvironments : List (EnvironmentKey × Environment)}
    {acc : StoreState × List StoreOp} {k : MetricKey} {m : Metric} {k3 : MetricKey}
    (h : lookupKey acc.1.Metrics k3 = none) :
    lookupKey (metricEnvironmentLabelCheck storedEnvironments acc k m).1.Metrics k3 = none := by
  unfold metricEnvironmentLabelCheck
  repeat' split
  all_goals first
    | exact lookupKey_eraseKey_none h
    | exact h

/-- One metric-GC loop body preserves the absence of any metric key:
the body only ever deletes. -/
theorem garbageCollectMetricsStep_lookup_none {storedRefs : List (RefKey × Ref)}
    {storedEnvironments : List (EnvironmentKey × Environment)} {s : StoreState}
    {k : MetricKey} {m : Metric} {k3 : MetricKey}
    (h : lookupKey s.Metrics k3 = none) :
    lookupKey (garbageCollectMetricsStep storedRefs storedEnvironments s k m).1.Metrics k3 = none := by
  have hfirst := metricMalformedLabelCheck_lookup_none (k := k) (m := m) h
  cases hr : metricRefLabelCheck storedRefs (metricMalformedLabelCheck s k m) k m with
  | some out =>
    simp only [garbageCollectMetricsStep, hr]
    exact metricRefLabelCheck_lookup_none hr hfirst
  | none =>
    simp only [garbageCollectMetricsStep, hr]
    exact metricEnvironmentLabelCheck_lookup_none hfirst

/-- The metric-GC loop preserves the absence of any metric key. -/
theorem garbageCollectMetricsGo_lookup_none {storedRefs : List (RefKey × Ref)}
    {storedEnvironments : List (EnvironmentKey × Environment)} {k3 : MetricKey} :
    ∀ (l : List (MetricKey × Metric)) (s : StoreState) (ops : List StoreOp),
      lookupKey s.Metrics k3 = none →
      lookupKey (garbageCollectMetricsGo storedRefs storedEnvironments l s ops).1.Metrics k3 = none := by
  intro l
  induction l with
  | nil => intro s ops h; exact h
  | cons km rest ih =>
    intro s ops h
    obtain ⟨k2, m2⟩ := km
    simp only [garbageCollectMetricsGo]
    exact ih _ _ (garbageCollectMetricsStep_lookup_none h)

/-- A malformed metric's own key is absent after its loop body ran: the
malformed branch deletes it and the later branches never re-add it. -/
theorem garbageCollectMetricsStep_malformed {storedRefs : List (RefKey × Ref)}
    {storedEnvironments : List (EnvironmentKey × Environment)} {s : StoreState}
    {k : MetricKey} {m : Metric}
    (hmal : lookupKey m.Labels "project" = none ∨
      (lookupKey m.Labels "ref" = none ∧ lookupKey m.Labels "environment" = none)) :
    lookupKey (garbageCollectMetricsStep storedRefs storedEnvironments s k m).1.Metrics k = none := by
  have hfirst : metricMalformedLabelCheck s k m =
      (s.DelMetric k,
        [StoreOp.delMetric k "project-or-ref-and-environment-label-undefined"]) := by
    rcases hmal with h | ⟨h1, h2⟩
    · simp [metricMalformedLabelCheck, h]
    · simp [metricMalformedLabelCheck, h1, h2]
  have hnone : lookupKey (metricMalformedLabelCheck s k m).1.Metrics k = none := by
    rw [hfirst]
    exact lookupKey_eraseKey_self ..
  cases hr : metricRefLabelCheck storedRefs (metricMalformedLabelCheck s k m) k m with
  | some out =>
    simp only [garbageCollectMetricsStep, hr]
    exact metricRefLabelCheck_lookup_none hr hnone
  | none =>
    simp only [garbageCollectMetricsStep, hr]
    exact metricEnvironmentLabelCheck_lookup_none hnone

/-- Any malformed metric of the iteration list is absent once the
metric-GC loop finishes. -/
theorem garbageCollectMetricsGo_malformed {storedRefs : List (RefKey × Ref)}
    {storedEnvironments : List (EnvironmentKey × Environment)} {k : MetricKey}
    {m : Metric}
    (hmal : lookupKey m.Labels "project" = none ∨
      (lookupKey m.Labels "ref" = none ∧ lookupKey m.Labels "environment" = none)) :
    ∀ (l : List (MetricKey × Metric)) (s : StoreState) (ops : List StoreOp),
      (k, m) ∈ l →
      lookupKey (garbageCollectMetricsGo storedRefs storedEnvironments l s ops).1.Metrics k = none := by
  intro l
  induction l with
  | nil => intro s ops hmem; simp at hmem
  | cons km rest ih =>
    intro s ops hmem
    obtain ⟨k2, m2⟩ := km
    rcases List.mem_cons.mp hmem with heq | hmem2
    · injection heq with h1 h2
      subst h1
      subst h2
      simp only [garbageCollectMetricsGo]
      exact garbageCollectMetricsGo_lookup_none rest _ _
        (garbageCollectMetricsStep_malformed hmal)
    · simp only [garbageCollectMetricsGo]
      exact ih _ _ hmem2

/-! ### Claim C6 — malformed metrics are deleted -/

/-- Claim C6: every stored metric whose labels lack `project`, or lack
both `ref` and `environment`, is deleted by garbageCollectMetrics; in
particular a metric lacking `project` is deleted whatever its other
labels are (the hypothesis places no constraint on them). -/
theorem garbageCollectMetrics_deletes_malformed (s : StoreState) (k : MetricKey)
    (m : Metric) (hmem : (k, m) ∈ s.Metrics)
    (hmal : lookupKey m.Labels "project" = none ∨
      (lookupKey m.Labels "ref" = none ∧ lookupKey m.Labels "environment" = none)) :
    lookupKey (garbageCollectMetrics s).1.Metrics k = none :=
  garbageCollectMetricsGo_malformed hmal s.Metrics s [] hmem

/-- Closed evaluation of C6 on a metric without a `project` label. -/
theorem garbageCollectMetrics_deletes_malformed_witness :
    lookupKey (garbageCollectMetrics c6s).1.Metrics c6metric.Key = none :=
  garbageCollectMetrics_deletes_malformed c6s c6metric.Key c6metric
    (by decide) (Or.inl (by decide))

/-! ### Claim C9 — the malformed branch does not stop the iteration -/

/-- Claim C9: for a metric lacking `project` but carrying `ref`, the
malformed branch deletes it and, the branch having no `continue`, the
ref-label branch still runs, recomposes a Ref key whose project name is
the empty string, and — that key resolving to no stored Ref — issues a
second DelMetric on the very same key. -/
theorem garbageCollectMetricsStep_double_delete (storedRefs : List (RefKey × Ref))
    (storedEnvironments : List (EnvironmentKey × Environment)) (s : StoreState)
    (k : MetricKey) (m : Metric)
    (hp : lookupKey m.Labels "project" = none)
    (hr : (lookupKey m.Labels "ref").isSome = true)
    (hnone : lookupKey storedRefs (reconstructedRefKey m) = none) :
    reconstructedRefKey m =
      ((lookupKey m.Labels "kind").getD "", "", (lookupKey m.Labels "ref").getD "") ∧
    garbageCollectMetricsStep storedRefs storedEnvironments s k m =
      ((s.DelMetric k).DelMetric k,
        [StoreOp.delMetric k "project-or-ref-and-environment-label-undefined",
         StoreOp.delMetric k "non-existent-ref"]) := by
  have hfirst : metricMalformedLabelCheck s k m =
      (s.DelMetric k,
        [StoreOp.delMetric k "project-or-ref-and-environment-label-undefined"]) := by
    simp [metricMalformedLabelCheck, hp]
  refine ⟨by simp [reconstructedRefKey, refStub, Ref.Key, hp], ?_⟩
  have href : metricRefLabelCheck storedRefs (metricMalformedLabelCheck s k m) k m =
      some ((s.DelMetric k).DelMetric k,
        [StoreOp.delMetric k "project-or-ref-and-environment-label-undefined",
         StoreOp.delMetric k "non-existent-ref"]) := by
    simp [metricRefLabelCheck, hr, hnone, hfirst]
  simp [garbageCollectMetricsStep, href]

/-- Closed evaluation of C9: the loop body for a `{ref: "main"}`-only
metric deletes the same key twice in one iteration. -/
theorem garbageCollectMetricsStep_double_delete_witness :
    garbageCollectMetricsStep [] [] c9s c9metric.Key c9metric =
      ((c9s.DelMetric c9metric.Key).DelMetric c9metric.Key,
        [StoreOp.delMetric c9metric.Key "project-or-ref-and-environment-label-undefined",
         StoreOp.delMetric c9metric.Key "non-existent-ref"]) :=
  (garbageCollectMetricsStep_double_delete [] [] c9s c9metric.Key c9metric
    (by decide) (by decide) (by decide)).2

/-! ### Claim C2 — exact characterization of the ref-label deletions -/

/-- Every op the malformed check writes carries the malformed reason. -/
theorem metricMalformedLabelCheck_ops {s : StoreState} {k : MetricKey} {m : Metric} :
    ∀ op ∈ (metricMalformedLabelCheck s k m).2,
      op = StoreOp.delMetric k "project-or-ref-and-environment-label-undefined" := by
  unfold metricMalformedLabelCheck
  split <;> simp

/-- Every op the environment-label check writes is inherited from its
input or carries the non-existent-environment reason. -/
theorem metricEnvironmentLabelCheck_ops
    {storedEnvironments : List (EnvironmentKey × Environment)}
    {acc : StoreState × List StoreOp} {k : MetricKey} {m : Metric} :
    ∀ op ∈ (metricEnvironmentLabelCheck storedEnvironments acc k m).2,
      op ∈ acc.2 ∨ op = StoreOp.delMetric k "non-existent-environment" := by
  unfold metricEnvironmentLabelCheck
  repeat' split
  all_goals intro op hop
  all_goals
    first
      | exact Or.inl hop
      | (rcases List.mem_append.mp hop with h1 | h2
         · exact Or.inl h1
         · exact Or.inr (List.mem_singleton.mp h2))

/-- Claim C2: for a stored metric carrying a `ref` label, the loop body
deletes it through the ref-label checks exactly when the Ref key
recomposed from the `project`, `kind` and `ref` labels resolves to no
stored Ref, or it resolves to a Ref with `PullPipelineJobsEnabled`
false while the metric's Kind is one of the six job-family kinds, or it
resolves to a Ref with `OutputSparseStatusMetrics` true while the
metric's Kind is job-status or status and its Value differs from 1; a
metric matching none of these is retained unchanged by the ref-label
checks (no ref-branch deletion op is emitted for it). -/
theorem garbageCollectMetricsStep_refLabel_deletion_iff
    (storedRefs : List (RefKey × Ref))
    (storedEnvironments : List (EnvironmentKey × Environment)) (s : StoreState)
    (k : MetricKey) (m : Metric)
    (h : (lookupKey m.Labels "ref").isSome = true) :
    (StoreOp.delMetric k "non-existent-ref" ∈
        (garbageCollectMetricsStep storedRefs storedEnvironments s k m).2 ∨
     StoreOp.delMetric k "jobs-metrics-disabled-on-project-ref" ∈
        (garbageCollectMetricsStep storedRefs storedEnvironments s k m).2 ∨
     StoreOp.delMetric k "output-sparse-metrics-enabled-on-project-ref" ∈
        (garbageCollectMetricsStep storedRefs storedEnvironments s k m).2)
    ↔
    (lookupKey storedRefs (reconstructedRefKey m) = none ∨
     ∃ ref, lookupKey storedRefs (reconstructedRefKey m) = some ref ∧
       ((isJobFamilyKind m.Kind = true ∧ ref.PullPipelineJobsEnabled = false) ∨
        (isStatusFamilyKind m.Kind = true ∧ ref.OutputSparseStatusMetrics = true ∧
          m.Value ≠ 1))) := by
  cases hlk : lookupKey storedRefs (reconstructedRefKey m) with
  | none =>
    have href : metricRefLabelCheck storedRefs (metricMalformedLabelCheck s k m) k m =
        some ((metricMalformedLabelCheck s k m).1.DelMetric k,
          (metricMalformedLabelCheck s k m).2 ++
            [StoreOp.delMetric k "non-existent-ref"]) := by
      simp [metricRefLabelCheck, h, hlk]
    refine iff_of_true (Or.inl ?_) (Or.inl rfl)
    simp only [garbageCollectMetricsStep, href]
    exact List.mem_append.mpr (Or.inr (List.mem_singleton.mpr rfl))
  | some ref =>
    by_cases hjob : isJobFamilyKind m.Kind = true ∧ ref.PullPipelineJobsEnabled = false
    · have href : metricRefLabelCheck storedRefs (metricMalformedLabelCheck s k m) k m =
          some ((metricMalformedLabelCheck s k m).1.DelMetric k,
            (metricMalformedLabelCheck s k m).2 ++
              [StoreOp.delMetric k "jobs-metrics-disabled-on-project-ref"]) := by
        simp [metricRefLabelCheck, h, hlk, hjob]
      refine iff_of_true (Or.inr (Or.inl ?_)) (Or.inr ⟨ref, rfl, Or.inl hjob⟩)
      simp only [garbageCollectMetricsStep, href]
      exact List.mem_append.mpr (Or.inr (List.mem_singleton.mpr rfl))
    · by_cases hsp : isStatusFamilyKind m.Kind = true ∧
          ref.OutputSparseStatusMetrics = true ∧ m.Value ≠ 1
      · have href : metricRefLabelCheck storedRefs (metricMalformedLabelCheck s k m) k m =
            some ((metricMalformedLabelCheck s k m).1.DelMetric k,
              (metricMalformedLabelCheck s k m).2 ++
                [StoreOp.delMetric k "output-sparse-metrics-enabled-on-project-ref"]) := by
          simp [metricRefLabelCheck, h, hlk, hjob, hsp]
        refine iff_of_true (Or.inr (Or.inr ?_)) (Or.inr ⟨ref, rfl, Or.inr hsp⟩)
        simp only [garbageCollectMetricsStep, href]
        exact List.mem_append.mpr (Or.inr (List.mem_singleton.mpr rfl))
      · have href : metricRefLabelCheck storedRefs (metricMalformedLabelCheck s k m) k m =
            none := by
          simp [metricRefLabelCheck, h, hlk, hjob, hsp]
        refine iff_of_false ?_ ?_
        · intro hmem
          have hstep : (garbageCollectMetricsStep storedRefs storedEnvironments s k m).2 =
              (metricEnvironmentLabelCheck storedEnvironments
                (metricMalformedLabelCheck s k m) k m).2 := by
            simp only [garbageCollectMetricsStep, href]
          rw [hstep] at hmem
          rcases hmem with h1 | h1 | h1
          all_goals
            rcases metricEnvironmentLabelCheck_ops _ h1 with h2 | h2
          all_goals
            first
              | (have h3 := metricMalformedLabelCheck_ops _ h2
                 injection h3 with hk hreason
                 exact absurd hreason (by decide))
              | (injection h2 with hk hreason
                 exact absurd hreason (by decide))
        · intro hrhs
          rcases hrhs with h0 | ⟨ref2, heq, hcond⟩
          · exact Option.noConfusion h0
          · injection heq with heq2
            subst heq2
            rcases hcond with hc | hc
            · exact hjob hc
            · exact hsp hc

/-- Closed evaluation of C2 on the spec scenario: a job-status metric
whose resolved Ref has PullPipelineJobsEnabled = false is deleted by the
ref-label checks. -/
theorem garbageCollectMetricsStep_refLabel_deletion_iff_witness :
    StoreOp.delMetric c2metric.Key "non-existent-ref" ∈
        (garbageCollectMetricsStep [(c2ref.Key, c2ref)] [] c2s c2metric.Key c2metric).2 ∨
    StoreOp.delMetric c2metric.Key "jobs-metrics-disabled-on-project-ref" ∈
        (garbageCollectMetricsStep [(c2ref.Key, c2ref)] [] c2s c2metric.Key c2metric).2 ∨
    StoreOp.delMetric c2metric.Key "output-sparse-metrics-enabled-on-project-ref" ∈
        (garbageCollectMetricsStep [(c2ref.Key, c2ref)] [] c2s c2metric.Key c2metric).2 :=
  (garbageCollectMetricsStep_refLabel_deletion_iff [(c2ref.Key, c2ref)] [] c2s
    c2metric.Key c2metric (by decide)).mpr
    (Or.inr ⟨c2ref, by decide, Or.inl ⟨by decide, by decide⟩⟩)

/-! ### Claim C1 — Projects GC retention -/

/-- Success of the wildcard loop characterizes the surviving entries of
the local stored-projects map. -/
theorem garbageCollectProjectsWildcards_ok_mem
    (lp : String → Except String (List Project)) :
    ∀ (ws : List String) (m m2 : List (String × Project)),
      garbageCollectProjectsWildcards lp ws m = Except.ok m2 →
      ∀ kv : String × Project, kv ∈ m2 ↔ kv ∈ m ∧
        ∀ w ∈ ws, ∀ qs, lp w = Except.ok qs → ∀ q ∈ qs, q.Key ≠ kv.1 := by
  intro ws
  induction ws with
  | nil =>
    intro m m2 h kv
    injection h with h2
    subst h2
    simp
  | cons w ws2 ih =>
    intro m m2 h kv
    rcases hlw : lp w with e | found
    · simp only [garbageCollectProjectsWildcards, hlw] at h
      exact Except.noConfusion h
    · simp only [garbageCollectProjectsWildcards, hlw] at h
      have hi := ih _ _ h kv
      rw [hi, mem_foldl_eraseKey Project.Key found m kv]
      constructor
      · rintro ⟨⟨hm, hfound⟩, hrest⟩
        refine ⟨hm, ?_⟩
        intro w2 hw2 qs hqs q hq
        rcases List.mem_cons.mp hw2 with rfl | hw3
        · rw [hlw] at hqs
          injection hqs with hqs2
          subst hqs2
          exact hfound q hq
        · exact hrest w2 hw3 qs hqs q hq
      · rintro ⟨hm, hall⟩
        refine ⟨⟨hm, ?_⟩, ?_⟩
        · intro q hq
          exact hall w (List.mem_cons_self w ws2) found hlw q hq
        · intro w2 hw2 qs hqs q hq
          exact hall w2 (List.mem_cons_of_mem w hw2) qs hqs q hq

/-- The final deletion loop of the Projects GC erases exactly the stale
keys from the store. -/
theorem garbageCollectProjects_delete_foldl :
    ∀ (stale : List (String × Project)) (s : StoreState) (ops : List StoreOp),
      (stale.foldl
        (fun acc kp => (acc.1.DelProject kp.1, acc.2 ++ [StoreOp.delProject kp.1]))
        (s, ops)).1.Projects =
        stale.foldl (fun mm kp => eraseKey mm kp.1) s.Projects := by
  intro stale
  induction stale with
  | nil => intro s ops; rfl
  | cons kp rest ih =>
    intro s ops
    simp only [List.foldl_cons]
    exact ih _ _

/-- Claim C1: after a successful garbageCollectProjects run, a project
entry remains in the store iff it was stored before and its key is the
key of an explicitly configured project or of a project returned by the
wildcard discovery listing; every other stored project was deleted by
the pass. -/
theorem garbageCollectProjects_retention
    (lp : String → Except String (List Project)) (config : Config)
    (s s2 : StoreState) (ops : List StoreOp)
    (h : garbageCollectProjects lp config s = Except.ok (s2, ops)) :
    ∀ (k : String) (p : Project),
      (k, p) ∈ s2.Projects ↔ ((k, p) ∈ s.Projects ∧ KeptProjectKey lp config k) := by
  intro k p
  rcases hw : garbageCollectProjectsWildcards lp config.Wildcards
      (config.Projects.foldl (fun mm q => eraseKey mm q.Key) s.Projects)
    with e | stale
  · simp only [garbageCollectProjects, hw] at h
    exact Except.noConfusion h
  · simp only [garbageCollectProjects, hw] at h
    injection h with h2
    have hproj : s2.Projects = stale.foldl (fun mm kp => eraseKey mm kp.1) s.Projects := by
      rw [← garbageCollectProjects_delete_foldl stale s [], h2]
    have hstale : ∀ kv : String × Project, kv ∈ stale ↔
        (kv ∈ s.Projects ∧ ∀ q ∈ config.Projects, q.Key ≠ kv.1) ∧
        ∀ w ∈ config.Wildcards, ∀ qs, lp w = Except.ok qs → ∀ q ∈ qs, q.Key ≠ kv.1 := by
      intro kv
      rw [garbageCollectProjectsWildcards_ok_mem lp config.Wildcards _ _ hw kv,
        mem_foldl_eraseKey Project.Key config.Projects s.Projects kv]
    have hfinal : ((k, p) ∈ s2.Projects) ↔
        (k, p) ∈ s.Projects ∧ ∀ kp ∈ stale, kp.1 ≠ k := by
      rw [hproj, mem_foldl_eraseKey Prod.fst stale s.Projects (k, p)]
    rw [hfinal]
    constructor
    · rintro ⟨hm, hns⟩
      refine ⟨hm, ?_⟩
      by_contra hnk
      rw [KeptProjectKey] at hnk
      push_neg at hnk
      obtain ⟨hn1, hn2⟩ := hnk
      have hks : (k, p) ∈ stale := by
        rw [hstale (k, p)]
        exact ⟨⟨hm, fun q hq => hn1 q hq⟩, fun w hw2 qs hqs q hq => hn2 w hw2 qs hqs q hq⟩
      exact hns (k, p) hks rfl
    · rintro ⟨hm, hkept⟩
      refine ⟨hm, ?_⟩
      intro kp hkp
      rw [hstale kp] at hkp
      intro heqk
      rcases hkept with ⟨q, hq, hqk⟩ | ⟨w, hw2, qs, hqs, q, hq, hqk⟩
      · exact hkp.1.2 q hq (by rw [hqk, heqk])
      · exact hkp.2 w hw2 qs hqs q hq (by rw [hqk, heqk])

/-- Closed evaluation of C1 on the spec scenario: "a/b" is configured
and survives; "c/d" is neither configured nor discoverable and is
deleted. -/
theorem garbageCollectProjects_retention_witness :
    ("a/b", projectStub "a/b") ∈ c1after.Projects ∧
    ("c/d", projectStub "c/d") ∉ c1after.Projects := by
  have h := garbageCollectProjects_retention c1listProjects c1config c1store
    c1after [StoreOp.delProject "c/d"] rfl
  constructor
  · exact (h "a/b" (projectStub "a/b")).mpr
      ⟨by decide, Or.inl ⟨projectStub "a/b", by decide, rfl⟩⟩
  · intro hin
    rcases ((h "c/d" (projectStub "c/d")).mp hin).2 with ⟨q, hq, hqk⟩ | ⟨w, hw2, _⟩
    · simp only [c1config, List.mem_singleton] at hq
      subst hq
      exact absurd hqk (by decide)
    · simp [c1config] at hw2

end Gcpe
